import Mathlib

/-!
Shallow embedding of the TradeMaster order-placement core
(src/order_manager.py and the batch loop in src/main.py).

Broker calls (KiteConnect) are modelled as oracles: each call either
returns a value or raises, encoded with `Except String`. Python floats
appearing in the margin logic are modelled as rationals, with the
`float(inf)` sentinel represented by a dedicated constructor of
`MarginVal`. Per retry attempt the broker may answer differently, so an
environment maps the attempt index to the four call results of that
attempt.
-/

instance {ε α : Type} [DecidableEq ε] [DecidableEq α] : DecidableEq (Except ε α) := fun x y =>
  match x, y with
  | .ok a, .ok b => decidable_of_iff (a = b) (by simp)
  | .ok _, .error _ => .isFalse (fun h => by cases h)
  | .error _, .ok _ => .isFalse (fun h => by cases h)
  | .error e, .error f => decidable_of_iff (e = f) (by simp)

/-- Result of the margin estimator `_check_margin_required`: either a
finite rupee amount or the `inf` sentinel returned when both the
order-margin call and the last-price fallback fail. -/
inductive MarginVal where
  | finite (amount : ℚ)
  | unbounded
deriving DecidableEq

/-- The broker call results visible to one attempt of `place_order`:
`order_margins` (on success, the optional value of the `total` field of
the first response element), `ltp` (last traded price for the
exchange:symbol key), `margins` (the account equity available cash,
missing fields defaulting to 0 upstream), and `kite_place_order` (the
order id). `Except.error` is a raised exception with its message. -/
structure KiteAttempt where
  order_margins : Except String (Option ℚ)
  ltp : Except String ℚ
  margins : Except String ℚ
  kite_place_order : Except String String
deriving DecidableEq

/-- Order parameters dict built at the top of the `try` block of
`place_order`. -/
structure OrderParams where
  tradingsymbol : List Char
  exchange : List Char
  quantity : ℤ
  order_type : String
  price : Option ℚ
deriving DecidableEq

/-- Message of an exception observed by the `except` clause of
`place_order`: either the ValueError raised on insufficient margin
(carrying the full symbol and the required margin interpolated into its
text) or an exception propagating from the broker placement call. -/
inductive ErrMsg where
  | insufficientMargin (symbol : List Char) (required : MarginVal)
  | kite (msg : String)
deriving DecidableEq

/-- Python list split on a single character, as in `symbol.split(c)`:
total, never returns the empty list. -/
def pySplit (c : Char) : List Char → List (List Char)
  | [] => [[]]
  | a :: rest =>
    if a = c then [] :: pySplit c rest
    else
      match pySplit c rest with
      | [] => [[a]]
      | h :: t => (a :: h) :: t

/-- Embedding of `_check_margin_required`: try the order-margin call and
read its `total` field (defaulting to 0 when the field is absent); on
exception fall back to last traded price times quantity; if that also
raises, return the `inf` sentinel. Total by construction: every failure
path resolves to a `MarginVal`. -/
def check_margin_required (k : KiteAttempt) (p : OrderParams) : MarginVal :=
  match k.order_margins with
  | .ok total => .finite (total.getD 0)
  | .error _ =>
    match k.ltp with
    | .ok price => .finite (price * (p.quantity : ℚ))
    | .error _ => .unbounded

/-- Embedding of `_has_sufficient_margin`: fetch account margins and
compare available cash against the requirement; a finite available cash
is never `>=` the `inf` sentinel; if the fetch raises, return `true`
(fail open). -/
def has_sufficient_margin (k : KiteAttempt) (required : MarginVal) : Bool :=
  match k.margins with
  | .ok cash =>
    match required with
    | .finite amount => decide (amount ≤ cash)
    | .unbounded => false
  | .error _ => true

/-- Outcome of one execution of the `try` block of `place_order`:
`outcome` is the order id or the caught exception message, and
`placeCalled` records whether `kite.place_order` was invoked. -/
structure AttemptRes where
  outcome : Except ErrMsg String
  placeCalled : Bool
deriving DecidableEq

/-- One execution of the `try` block of `place_order`: compute the
required margin, check sufficiency, raise ValueError if insufficient
(no placement call), otherwise call the broker placement. -/
def attemptOnce (k : KiteAttempt) (p : OrderParams) (symbol : List Char) : AttemptRes :=
  let required := check_margin_required k p
  if has_sufficient_margin k required then
    match k.kite_place_order with
    | .ok oid => ⟨.ok oid, true⟩
    | .error e => ⟨.error (.kite e), true⟩
  else ⟨.error (.insufficientMargin symbol required), false⟩

/-- The dict returned by `place_order`: success with order id, or
failure with the error message; both carry the full trading symbol. -/
inductive OrderResult where
  | success (order_id : String) (symbol : List Char)
  | failure (error : ErrMsg) (symbol : List Char)
deriving DecidableEq

/-- Truth of the `success` field of an order result dict. -/
def OrderResult.isSuccess : OrderResult → Bool
  | .success _ _ => true
  | .failure _ _ => false

/-- Observable cost of a `place_order` run: number of executions of the
`try` block (submission attempts), number of `kite.place_order`
invocations, and cumulative `time.sleep` seconds. -/
structure Stats where
  attempts : ℕ
  placeCalls : ℕ
  sleep : ℕ
deriving DecidableEq

/-- The recursive retry core of `place_order`: run one attempt; on
success return; on a caught exception, if `retry_attempts > 0` sleep
`retry_delay` seconds and recurse with `retry_attempts - 1`, else
return the failure dict with the last message. `i` is the attempt
index used to look up that attempt's broker behaviour. -/
def placeOrderLoop (env : ℕ → KiteAttempt) (p : OrderParams) (symbol : List Char)
    (retry_delay : ℕ) : ℕ → ℕ → OrderResult × Stats
  | i, retry_attempts =>
    let a := attemptOnce (env i) p symbol
    let base : Stats := ⟨1, if a.placeCalled then 1 else 0, 0⟩
    match a.outcome with
    | .ok oid => (.success oid symbol, base)
    | .error e =>
      match retry_attempts with
      | 0 => (.failure e symbol, base)
      | n + 1 =>
        let rec_ := placeOrderLoop env p symbol retry_delay (i + 1) n
        (rec_.1, ⟨base.attempts + rec_.2.attempts,
                  base.placeCalls + rec_.2.placeCalls,
                  retry_delay + rec_.2.sleep⟩)

/-- A watchlist row as `place_order` reads it. The `quantity` and
`limit_price` fields hold the result of the Python conversions
`int(...)` and `float(...)`: `none` means the conversion raises. -/
structure StockEntry where
  trading_symbol : List Char
  quantity : Option ℤ
  order_type : String
  limit_price : Option ℚ
  is_active : Bool
deriving DecidableEq

/-- The order-params dict of `place_order`: trading symbol is the last
colon-separated segment, exchange is the first segment when a colon is
present and the default NSE otherwise, and `price` is set only for
LIMIT orders with a truthy (non-None, non-zero) limit price. -/
def buildParams (symbol : List Char) (q : ℤ) (order_type : String)
    (limit_price : Option ℚ) : OrderParams :=
  { tradingsymbol := (pySplit ':' symbol).getLastD []
    exchange := if ':' ∈ symbol then (pySplit ':' symbol).headD [] else "NSE".toList
    quantity := q
    order_type := order_type
    price :=
      if order_type = "LIMIT" then
        match limit_price with
        | some lp => if lp = 0 then none else some lp
        | none => none
      else none }

/-- Embedding of `place_order`. The field conversions at the top of the
function body sit outside the `try` block, so a failed conversion
propagates as an exception (`Except.error`); everything inside the
`try` is absorbed by the retry logic and yields a result dict. -/
def place_order (env : ℕ → KiteAttempt) (e : StockEntry)
    (retry_attempts retry_delay : ℕ) : Except String (OrderResult × Stats) :=
  match e.quantity with
  | none => .error "invalid literal for int"
  | some q =>
    if e.order_type = "LIMIT" ∧ e.limit_price = none then
      .error "could not convert to float"
    else
      .ok (placeOrderLoop env
        (buildParams e.trading_symbol q e.order_type e.limit_price)
        e.trading_symbol retry_delay 0 retry_attempts)

/-- A parsed watchlist CSV: its header columns and its rows. -/
structure CsvFile where
  columns : List String
  rows : List StockEntry

/-- The required watchlist columns, in the order `load_stock_config`
checks them. -/
def required_columns : List String :=
  ["trading_symbol", "quantity", "order_type", "limit_price", "is_active"]

/-- Embedding of `load_stock_config`: collect the required columns
missing from the file; if any, raise ValueError; otherwise return the
rows with a truthy `is_active`. -/
def load_stock_config (f : CsvFile) : Except (List String) (List StockEntry) :=
  match required_columns.filter (fun c => !f.columns.contains c) with
  | [] => .ok (f.rows.filter (·.is_active))
  | missing => .error missing

/-- A result dict with the timestamp added by the batch loop. -/
structure TimedResult where
  result : OrderResult
  timestamp : String
deriving DecidableEq

/-- A notification event handed to the notification manager: the
per-order success variant (severity SUCCESS), the per-order failure
variant carrying the error message (severity ERROR), the configuration
error (severity ERROR), or the end-of-batch summary (severity INFO). -/
inductive Notif where
  | orderPlaced (r : TimedResult)
  | orderFailed (r : TimedResult) (error : ErrMsg)
  | configError (missing : List String)
  | summary (total successful failed : ℕ)
deriving DecidableEq

/-- The notification the batch loop sends for one timed result:
`notify_order_placed` when `success` is truthy, otherwise
`notify_order_failed` with the error message of the result. -/
def individualNotif (tr : TimedResult) : Notif :=
  match tr.result with
  | .success _ _ => .orderPlaced tr
  | .failure e _ => .orderFailed tr e

/-- Pointwise sum of run costs. -/
def addStats (a b : Stats) : Stats :=
  ⟨a.attempts + b.attempts, a.placeCalls + b.placeCalls, a.sleep + b.sleep⟩

/-- The per-entry loop of `place_scheduled_orders`: for each entry in
order, call `place_order` (the broker behaviour of entry `i` is
`benv i`, its timestamp `ts i`), append the timestamped result, and
send one individual notification. A conversion exception escaping
`place_order` propagates and aborts the loop. -/
def processEntries (benv : ℕ → ℕ → KiteAttempt) (ts : ℕ → String)
    (retry_attempts retry_delay : ℕ) :
    List StockEntry → ℕ → Except String (List TimedResult × List Notif × Stats)
  | [], _ => .ok ([], [], ⟨0, 0, 0⟩)
  | e :: rest, i =>
    match place_order (benv i) e retry_attempts retry_delay with
    | .error msg => .error msg
    | .ok (r, s) =>
      let tr : TimedResult := ⟨r, ts i⟩
      match processEntries benv ts retry_attempts retry_delay rest (i + 1) with
      | .error msg => .error msg
      | .ok (trs, ns, st) => .ok (tr :: trs, individualNotif tr :: ns, addStats s st)

/-- Embedding of `place_scheduled_orders` from the configuration-load
step onward (the weekday precheck above it is out of scope of the
core). A load failure is caught, reported once as an ERROR
notification, and ends the run; otherwise every active row is processed
sequentially and a single summary notification is appended, counting
successful results and reporting failures as total minus successes. -/
def place_scheduled_orders (f : CsvFile) (benv : ℕ → ℕ → KiteAttempt)
    (ts : ℕ → String) (retry_attempts retry_delay : ℕ) :
    Except String (List TimedResult × List Notif × Stats) :=
  match load_stock_config f with
  | .error missing => .ok ([], [.configError missing], ⟨0, 0, 0⟩)
  | .ok entries =>
    match processEntries benv ts retry_attempts retry_delay entries 0 with
    | .error msg => .error msg
    | .ok (trs, ns, st) =>
      let successful := trs.countP (fun tr => tr.result.isSuccess)
      .ok (trs, ns ++ [.summary trs.length successful (trs.length - successful)], st)

/-- The Python conversions at the top of `place_order` succeed for this
row: `int(quantity)` converts, and for LIMIT orders
`float(limit_price)` converts. -/
def entryConvertible (e : StockEntry) : Prop :=
  e.quantity ≠ none ∧ ¬(e.order_type = "LIMIT" ∧ e.limit_price = none)

instance (e : StockEntry) : Decidable (entryConvertible e) := by
  unfold entryConvertible
  infer_instance

/-- Splitting a list free of the separator returns the singleton of the
whole list, as `s.split(c)` does for a separator-free string. -/
theorem pySplit_of_not_mem (c : Char) :
    ∀ (l : List Char), c ∉ l → pySplit c l = [l] := by
  intro l
  induction l with
  | nil => intro _; rfl
  | cons a rest ih =>
    intro h
    rw [List.mem_cons, not_or] at h
    have ha : ¬ a = c := fun hh => h.1 hh.symm
    simp [pySplit, ha, ih h.2]

/-- Splitting past the first separator occurrence peels off the prefix
before it as the first segment. -/
theorem pySplit_append (c : Char) (l1 l2 : List Char) (h : c ∉ l1) :
    pySplit c (l1 ++ c :: l2) = l1 :: pySplit c l2 := by
  induction l1 with
  | nil => simp [pySplit]
  | cons a rest ih =>
    rw [List.mem_cons, not_or] at h
    have ha : ¬ a = c := fun hh => h.1 hh.symm
    simp [pySplit, ha, ih h.2]

/-- C6 (confirmed): deriving the order params from a trading symbol of
the shape EXCHANGE:SYMBOL yields that exchange and the bare symbol,
while a colon-free symbol is kept whole with the default exchange NSE.
-/
theorem C6_symbol_parsing (ex sym : List Char) (q : ℤ) (ot : String) (lp : Option ℚ)
    (hex : ':' ∉ ex) (hsym : ':' ∉ sym) :
    ((buildParams (ex ++ ':' :: sym) q ot lp).tradingsymbol = sym ∧
     (buildParams (ex ++ ':' :: sym) q ot lp).exchange = ex) ∧
    ((buildParams sym q ot lp).tradingsymbol = sym ∧
     (buildParams sym q ot lp).exchange = "NSE".toList) := by
  have hsplit : pySplit ':' (ex ++ ':' :: sym) = [ex, sym] := by
    rw [pySplit_append ':' ex sym hex, pySplit_of_not_mem ':' sym hsym]
  have hmem : ':' ∈ ex ++ ':' :: sym := List.mem_append_right ex (List.mem_cons_self ':' sym)
  constructor
  · constructor
    · simp [buildParams, hsplit]
    · simp [buildParams, hsplit, hmem]
  · constructor
    · simp [buildParams, pySplit_of_not_mem ':' sym hsym]
    · simp [buildParams, pySplit_of_not_mem ':' sym hsym, hsym]

/-- Witness instantiating C6 at the spec's concrete symbols
NFO:RELIANCE and RELIANCE. -/
theorem C6_symbol_parsing_witness :
    ((buildParams ("NFO".toList ++ ':' :: "RELIANCE".toList) 5 "MARKET" none).tradingsymbol
        = "RELIANCE".toList ∧
     (buildParams ("NFO".toList ++ ':' :: "RELIANCE".toList) 5 "MARKET" none).exchange
        = "NFO".toList) ∧
    ((buildParams "RELIANCE".toList 5 "MARKET" none).tradingsymbol = "RELIANCE".toList ∧
     (buildParams "RELIANCE".toList 5 "MARKET" none).exchange = "NSE".toList) :=
  C6_symbol_parsing "NFO".toList "RELIANCE".toList 5 "MARKET" none
    (by decide) (by decide)

/-- C4 (confirmed): whenever the account-margin fetch raises, the guard
returns true (fails open) for every required-margin value, including
the unbounded sentinel. Closed over all other broker behaviour. -/
theorem C4_fail_open (om : Except String (Option ℚ)) (lt : Except String ℚ)
    (po : Except String String) (err : String) (required : MarginVal) :
    has_sufficient_margin ⟨om, lt, .error err, po⟩ required = true := rfl

/-- C2 (confirmed): when both margin calls fail the estimate is the
unbounded sentinel, and with the account fetch succeeding the guard
rejects it whatever the available cash, so the attempt raises the
insufficient-margin error without calling the broker placement. -/
theorem C2_unbounded_blocks (k : KiteAttempt) (p : OrderParams) (symbol : List Char)
    (cash : ℚ) (e1 e2 : String)
    (hom : k.order_margins = .error e1) (hltp : k.ltp = .error e2)
    (hm : k.margins = .ok cash) :
    check_margin_required k p = .unbounded ∧
    has_sufficient_margin k .unbounded = false ∧
    attemptOnce k p symbol = ⟨.error (.insufficientMargin symbol .unbounded), false⟩ := by
  have h1 : check_margin_required k p = .unbounded := by
    simp [check_margin_required, hom, hltp]
  have h2 : has_sufficient_margin k .unbounded = false := by
    simp [has_sufficient_margin, hm]
  exact ⟨h1, h2, by simp [attemptOnce, h1, h2]⟩

/-- Witness instantiating C2 at a concrete doubly failing broker with
plentiful cash. -/
theorem C2_unbounded_blocks_witness :
    check_margin_required ⟨.error "net", .error "net2", .ok 1000000, .ok "X"⟩
        ⟨"R".toList, "NSE".toList, 5, "MARKET", none⟩ = .unbounded ∧
    has_sufficient_margin ⟨.error "net", .error "net2", .ok 1000000, .ok "X"⟩
        .unbounded = false ∧
    attemptOnce ⟨.error "net", .error "net2", .ok 1000000, .ok "X"⟩
        ⟨"R".toList, "NSE".toList, 5, "MARKET", none⟩ "R".toList
      = ⟨.error (.insufficientMargin "R".toList .unbounded), false⟩ :=
  C2_unbounded_blocks _ _ _ 1000000 "net" "net2" rfl rfl rfl

/-- C5 (confirmed): the estimator is a total function into `MarginVal`
by construction; when the primary call succeeds it returns the reported
total, when it fails and the last-price lookup returns P the estimate
is P times the quantity, and when both fail it is the unbounded
sentinel. -/
theorem C5_estimator_fallback (k : KiteAttempt) (p : OrderParams) (e1 : String)
    (hom : k.order_margins = .error e1) :
    (∀ P, k.ltp = .ok P →
      check_margin_required k p = .finite (P * (p.quantity : ℚ))) ∧
    (∀ e2, k.ltp = .error e2 → check_margin_required k p = .unbounded) := by
  constructor
  · intro P hP
    simp [check_margin_required, hom, hP]
  · intro e2 hltp
    simp [check_margin_required, hom, hltp]

/-- Witness instantiating C5 at price 7 and quantity 3 for the
fallback product, and at a second broker for the double failure. -/
theorem C5_estimator_fallback_witness :
    check_margin_required ⟨.error "down", .ok 7, .ok 0, .ok "X"⟩
        ⟨"R".toList, "NSE".toList, 3, "MARKET", none⟩ = .finite (7 * (3 : ℚ)) ∧
    check_margin_required ⟨.error "down", .error "down2", .ok 0, .ok "X"⟩
        ⟨"R".toList, "NSE".toList, 3, "MARKET", none⟩ = .unbounded := by
  constructor
  · exact (C5_estimator_fallback ⟨.error "down", .ok 7, .ok 0, .ok "X"⟩
      ⟨"R".toList, "NSE".toList, 3, "MARKET", none⟩ "down" rfl).1 7 rfl
  · exact (C5_estimator_fallback ⟨.error "down", .error "down2", .ok 0, .ok "X"⟩
      ⟨"R".toList, "NSE".toList, 3, "MARKET", none⟩ "down" rfl).2 "down2" rfl

/-- C10 (confirmed): a successful order-margin response lacking the
total field yields the estimate 0 — the price fallback is never
consulted, as `k.ltp` is arbitrary here — and the guard then permits
the order for every non-negative available cash. -/
theorem C10_missing_total (k : KiteAttempt) (p : OrderParams) (cash : ℚ)
    (hom : k.order_margins = .ok none) (hm : k.margins = .ok cash)
    (hcash : 0 ≤ cash) :
    check_margin_required k p = .finite 0 ∧
    has_sufficient_margin k (check_margin_required k p) = true := by
  have h1 : check_margin_required k p = .finite 0 := by
    simp [check_margin_required, hom]
  refine ⟨h1, ?_⟩
  rw [h1]
  simp [has_sufficient_margin, hm, hcash]

/-- Witness instantiating C10 with a failing last-price lookup and zero
available cash. -/
theorem C10_missing_total_witness :
    check_margin_required ⟨.ok none, .error "down", .ok 0, .ok "X"⟩
        ⟨"R".toList, "NSE".toList, 2, "MARKET", none⟩ = .finite 0 ∧
    has_sufficient_margin ⟨.ok none, .error "down", .ok 0, .ok "X"⟩
        (check_margin_required ⟨.ok none, .error "down", .ok 0, .ok "X"⟩
          ⟨"R".toList, "NSE".toList, 2, "MARKET", none⟩) = true :=
  C10_missing_total _ _ 0 rfl rfl (by norm_num)

/-- When every attempt raises, the retry loop started with budget `ra`
runs `ra + 1` attempts, sleeps `ra` delays, and returns the failure of
the last attempt, index `i + ra`. -/
theorem placeOrderLoop_allFail (env : ℕ → KiteAttempt) (p : OrderParams)
    (symbol : List Char) (d : ℕ) :
    ∀ (ra i : ℕ),
    (∀ j, ∃ err, (attemptOnce (env j) p symbol).outcome = .error err) →
    ∃ lastErr pc,
      (attemptOnce (env (i + ra)) p symbol).outcome = .error lastErr ∧
      placeOrderLoop env p symbol d i ra =
        (.failure lastErr symbol, ⟨ra + 1, pc, ra * d⟩) := by
  intro ra
  induction ra with
  | zero =>
    intro i h
    obtain ⟨err, he⟩ := h i
    refine ⟨err, if (attemptOnce (env i) p symbol).placeCalled then 1 else 0, ?_, ?_⟩
    · simpa using he
    · simp [placeOrderLoop, he]
  | succ n ih =>
    intro i h
    obtain ⟨err, he⟩ := h i
    obtain ⟨lastErr, pc, hlast, hloop⟩ := ih (i + 1) h
    refine ⟨lastErr, (if (attemptOnce (env i) p symbol).placeCalled then 1 else 0) + pc,
      ?_, ?_⟩
    · have : i + (n + 1) = i + 1 + n := by omega
      rw [this]
      exact hlast
    · have hsleep : d + n * d = (n + 1) * d := by ring
      simp [placeOrderLoop, he, hloop, hsleep]
      omega

/-- When the margin guard rejects every attempt, the retry loop with
budget `ra` runs `ra + 1` attempts, never calls the broker placement,
sleeps `ra` delays, and returns the insufficient-margin failure of the
last attempt. -/
theorem placeOrderLoop_guardFail (env : ℕ → KiteAttempt) (p : OrderParams)
    (symbol : List Char) (d : ℕ) :
    ∀ (ra i : ℕ),
    (∀ j, has_sufficient_margin (env j) (check_margin_required (env j) p) = false) →
    placeOrderLoop env p symbol d i ra =
      (.failure (.insufficientMargin symbol (check_margin_required (env (i + ra)) p))
         symbol,
       ⟨ra + 1, 0, ra * d⟩) := by
  intro ra
  induction ra with
  | zero =>
    intro i h
    have ha : attemptOnce (env i) p symbol =
        ⟨.error (.insufficientMargin symbol (check_margin_required (env i) p)), false⟩ := by
      simp [attemptOnce, h i]
    simp [placeOrderLoop, ha]
  | succ n ih =>
    intro i h
    have ha : attemptOnce (env i) p symbol =
        ⟨.error (.insufficientMargin symbol (check_margin_required (env i) p)), false⟩ := by
      simp [attemptOnce, h i]
    have hidx : i + (n + 1) = i + 1 + n := by omega
    have hsleep : d + n * d = (n + 1) * d := by ring
    rw [hidx]
    simp [placeOrderLoop, ha, ih (i + 1) h, hsleep]
    omega

/-- For a convertible row, `place_order` returns a result dict for
every broker behaviour: every exception inside the `try` block is
absorbed. -/
theorem place_order_total (env : ℕ → KiteAttempt) (e : StockEntry) (N D : ℕ)
    (h : entryConvertible e) :
    ∃ r s, place_order env e N D = .ok (r, s) := by
  obtain ⟨hq, hlp⟩ := h
  match hqe : e.quantity with
  | none => exact absurd hqe hq
  | some q =>
    exact ⟨(placeOrderLoop env (buildParams e.trading_symbol q e.order_type e.limit_price)
              e.trading_symbol D 0 N).1,
           (placeOrderLoop env (buildParams e.trading_symbol q e.order_type e.limit_price)
              e.trading_symbol D 0 N).2,
           by simp [place_order, hqe, hlp]⟩

/-- C9 (confirmed): if the quantity converts (and, for LIMIT orders,
the limit price converts), `place_order` returns a result dict and
propagates no exception, whatever the four broker operations do at
every attempt; so such an entry can never abort the batch loop. -/
theorem C9_place_order_no_exception (env : ℕ → KiteAttempt) (e : StockEntry)
    (N D : ℕ) (h : entryConvertible e) :
    ∃ r s, place_order env e N D = .ok (r, s) :=
  place_order_total env e N D h

/-- Witness instantiating C9 at a broker that raises on all four
operations at every attempt. -/
theorem C9_place_order_no_exception_witness :
    ∃ r s,
      place_order (fun _ => ⟨.error "a", .error "b", .error "c", .error "d"⟩)
        ⟨"RELIANCE".toList, some 5, "MARKET", none, true⟩ 3 2 = .ok (r, s) :=
  C9_place_order_no_exception (fun _ => ⟨.error "a", .error "b", .error "c", .error "d"⟩)
    ⟨"RELIANCE".toList, some 5, "MARKET", none, true⟩ 3 2 (by decide)

/-- A broker whose placement call always raises, with margin checks
succeeding; used to refute the attempt count of C1. -/
def envC1 : ℕ → KiteAttempt := fun _ => ⟨.ok (some 100), .ok 1, .ok 1000, .error "boom"⟩

/-- A market-order watchlist row used in concrete runs. -/
def entryC1 : StockEntry := ⟨"NFO:RELIANCE".toList, some 5, "MARKET", none, true⟩

/-- C1 counterexample: with retry_attempts N = 1 and retry_delay D = 2
against an always-failing submitter, the submission runs 2 times, not
N = 1, and sleeps 2 seconds, not (N - 1) * D = 0. -/
theorem C1_counterexample :
    place_order envC1 entryC1 1 2 =
      .ok (.failure (.kite "boom") "NFO:RELIANCE".toList, ⟨2, 2, 2⟩) ∧
    ¬(2 = 1 ∧ 2 = (1 - 1) * 2) := by
  refine ⟨by decide, by decide⟩

/-- C1 amended: with retry_attempts = N and retry_delay = D, when every
submission attempt fails, the submission is invoked exactly N + 1 times
(one initial attempt plus N retries), cumulative sleep is N * D
seconds, and the returned dict is a failure carrying the last attempt's
error message. -/
theorem C1_retry_exhaustion (env : ℕ → KiteAttempt) (e : StockEntry) (q : ℤ)
    (N D : ℕ) (hq : e.quantity = some q)
    (hlp : ¬(e.order_type = "LIMIT" ∧ e.limit_price = none))
    (hfail : ∀ j, ∃ err,
      (attemptOnce (env j)
        (buildParams e.trading_symbol q e.order_type e.limit_price)
        e.trading_symbol).outcome = .error err) :
    ∃ lastErr pc,
      (attemptOnce (env N)
        (buildParams e.trading_symbol q e.order_type e.limit_price)
        e.trading_symbol).outcome = .error lastErr ∧
      place_order env e N D =
        .ok (.failure lastErr e.trading_symbol, ⟨N + 1, pc, N * D⟩) := by
  obtain ⟨lastErr, pc, hlast, hloop⟩ :=
    placeOrderLoop_allFail env
      (buildParams e.trading_symbol q e.order_type e.limit_price)
      e.trading_symbol D N 0 hfail
  refine ⟨lastErr, pc, by simpa using hlast, ?_⟩
  simp [place_order, hq, hlp, hloop]

/-- Witness instantiating the amended C1 at N = 1, D = 2 against the
always-failing broker: 2 attempts and 2 seconds of sleep. -/
theorem C1_retry_exhaustion_witness :
    ∃ lastErr pc,
      (attemptOnce (envC1 1)
        (buildParams entryC1.trading_symbol 5 entryC1.order_type entryC1.limit_price)
        entryC1.trading_symbol).outcome = .error lastErr ∧
      place_order envC1 entryC1 1 2 =
        .ok (.failure lastErr entryC1.trading_symbol, ⟨1 + 1, pc, 1 * 2⟩) :=
  C1_retry_exhaustion envC1 entryC1 5 1 2 rfl (by decide)
    (fun _ => ⟨.kite "boom", rfl⟩)

/-- A broker whose margin guard rejects the first attempt (cash 10
against requirement 100) but accepts from the second attempt on (cash
1000), with placement succeeding; refutes C3. -/
def envC3 : ℕ → KiteAttempt := fun i =>
  if i = 0 then ⟨.ok (some 100), .ok 1, .ok 10, .ok "OID77"⟩
  else ⟨.ok (some 100), .ok 1, .ok 1000, .ok "OID77"⟩

/-- A colon-free market-order row used in the C3 refutation. -/
def entryC3 : StockEntry := ⟨"RELIANCE".toList, some 5, "MARKET", none, true⟩

/-- C3 counterexample: the margin guard returns false for this entry on
its first check, yet with retry_attempts = 1 the margin failure is
retried, the second check passes, and the flow ends with success = true
and one broker placement call — not a failure outcome with placement
count 0. -/
theorem C3_counterexample :
    has_sufficient_margin (envC3 0)
      (check_margin_required (envC3 0)
        (buildParams entryC3.trading_symbol 5 entryC3.order_type entryC3.limit_price))
      = false ∧
    place_order envC3 entryC3 1 2 =
      .ok (.success "OID77" entryC3.trading_symbol, ⟨2, 1, 2⟩) := by
  refine ⟨by decide, by decide⟩

/-- C3 amended: for every entry for which the margin guard returns
false at every check made while the entry is processed, the flow
returns a failure whose message identifies the margin shortfall and the
broker placement is never called (placement call count 0); the failure
is however returned only after the retry budget is exhausted, with
N + 1 margin checks and N * D seconds of sleep, not immediately. -/
theorem C3_margin_block (env : ℕ → KiteAttempt) (e : StockEntry) (q : ℤ)
    (N D : ℕ) (hq : e.quantity = some q)
    (hlp : ¬(e.order_type = "LIMIT" ∧ e.limit_price = none))
    (hguard : ∀ j, has_sufficient_margin (env j)
      (check_margin_required (env j)
        (buildParams e.trading_symbol q e.order_type e.limit_price)) = false) :
    place_order env e N D =
      .ok (.failure
            (.insufficientMargin e.trading_symbol
              (check_margin_required (env N)
                (buildParams e.trading_symbol q e.order_type e.limit_price)))
            e.trading_symbol,
          ⟨N + 1, 0, N * D⟩) := by
  have hloop := placeOrderLoop_guardFail env
    (buildParams e.trading_symbol q e.order_type e.limit_price)
    e.trading_symbol D N 0 hguard
  simp only [Nat.zero_add] at hloop
  simp [place_order, hq, hlp, hloop]

/-- A broker with a fixed margin requirement of 100 against available
cash 10, used for the amended C3 witness. -/
def envC3block : ℕ → KiteAttempt := fun _ => ⟨.ok (some 100), .ok 1, .ok 10, .ok "OID77"⟩

/-- Witness instantiating the amended C3 at N = 1, D = 2 against a
broker that always reports insufficient cash: failure with the
shortfall message, zero placement calls, 2 attempts, 2 seconds asleep.
-/
theorem C3_margin_block_witness :
    place_order envC3block entryC3 1 2 =
      .ok (.failure
            (.insufficientMargin entryC3.trading_symbol
              (check_margin_required (envC3block 1)
                (buildParams entryC3.trading_symbol 5 entryC3.order_type
                  entryC3.limit_price)))
            entryC3.trading_symbol,
          ⟨1 + 1, 0, 1 * 2⟩) :=
  C3_margin_block envC3block entryC3 5 1 2 rfl (by decide) (fun _ => rfl)

/-- The batch loop over a list of convertible rows returns, for each
row in source order, one timestamped result and one individual
notification, with the results matching `place_order` on that row's
broker behaviour and timestamp. -/
theorem processEntries_spec (benv : ℕ → ℕ → KiteAttempt) (ts : ℕ → String)
    (N D : ℕ) :
    ∀ (entries : List StockEntry) (i0 : ℕ),
    (∀ x ∈ entries, entryConvertible x) →
    ∃ trs st,
      processEntries benv ts N D entries i0 = .ok (trs, trs.map individualNotif, st) ∧
      trs.length = entries.length ∧
      ∀ j, j < entries.length →
        ∃ e r s, entries.get? j = some e ∧
          place_order (benv (i0 + j)) e N D = .ok (r, s) ∧
          trs.get? j = some ⟨r, ts (i0 + j)⟩ := by
  intro entries
  induction entries with
  | nil =>
    intro i0 _
    exact ⟨[], ⟨0, 0, 0⟩, rfl, rfl, fun j hj => absurd hj (by simp)⟩
  | cons e rest ih =>
    intro i0 h
    obtain ⟨r, s, hpo⟩ :=
      place_order_total (benv i0) e N D (h e (List.mem_cons_self e rest))
    obtain ⟨trs, st, heq, hlen, hpt⟩ :=
      ih (i0 + 1) (fun x hx => h x (List.mem_cons_of_mem e hx))
    refine ⟨⟨r, ts i0⟩ :: trs, addStats s st, ?_, by simp [hlen], ?_⟩
    · simp [processEntries, hpo, heq]
    · intro j hj
      match j with
      | 0 => exact ⟨e, r, s, rfl, by simpa using hpo, by simp⟩
      | jj + 1 =>
        obtain ⟨e2, r2, s2, he2, hp2, ht2⟩ := hpt jj (by simpa using hj)
        have hadd : i0 + (jj + 1) = i0 + 1 + jj := by omega
        refine ⟨e2, r2, s2, by simpa using he2, ?_, ?_⟩
        · rw [hadd]
          exact hp2
        · rw [hadd]
          simpa using ht2

/-- C7 (confirmed): with all required columns present and every active
row convertible, the batch runner processes the active rows strictly
sequentially in source order, emits exactly one timestamped outcome and
one individual notification per row plus a single trailing summary, and
the summary reports the row count, the number of successful outcomes,
and the failures as total minus successes. -/
theorem C7_batch_summary (f : CsvFile) (benv : ℕ → ℕ → KiteAttempt)
    (ts : ℕ → String) (N D : ℕ)
    (hcols : ∀ c ∈ required_columns, c ∈ f.columns)
    (hconv : ∀ x ∈ f.rows.filter (·.is_active), entryConvertible x) :
    ∃ trs st,
      place_scheduled_orders f benv ts N D =
        .ok (trs,
          trs.map individualNotif ++
            [.summary trs.length (trs.countP fun tr => tr.result.isSuccess)
              (trs.length - trs.countP fun tr => tr.result.isSuccess)], st) ∧
      trs.length = (f.rows.filter (·.is_active)).length ∧
      ∀ j, j < (f.rows.filter (·.is_active)).length →
        ∃ e r s, (f.rows.filter (·.is_active)).get? j = some e ∧
          place_order (benv j) e N D = .ok (r, s) ∧
          trs.get? j = some ⟨r, ts j⟩ := by
  have hfil : required_columns.filter (fun c => !f.columns.contains c) = [] := by
    rw [List.filter_eq_nil_iff]
    intro c hc
    simp [hcols c hc]
  have hload : load_stock_config f = .ok (f.rows.filter (·.is_active)) := by
    unfold load_stock_config
    rw [hfil]
  obtain ⟨trs, st, heq, hlen, hpt⟩ :=
    processEntries_spec benv ts N D (f.rows.filter (·.is_active)) 0 hconv
  refine ⟨trs, st, ?_, hlen, ?_⟩
  · simp [place_scheduled_orders, hload, heq]
  · intro j hj
    obtain ⟨e, r, s, he, hp, ht⟩ := hpt j hj
    exact ⟨e, r, s, he, by simpa using hp, by simpa using ht⟩

/-- A two-row watchlist file with all required columns, used for the C7
witness. -/
def csvC7 : CsvFile :=
  ⟨["trading_symbol", "quantity", "order_type", "limit_price", "is_active"],
   [⟨"AAA".toList, some 1, "MARKET", none, true⟩,
    ⟨"BBB".toList, some 2, "MARKET", none, true⟩]⟩

/-- Broker behaviour for the C7 witness: the first entry's placement
succeeds, the second's raises at every attempt. -/
def benvC7 : ℕ → ℕ → KiteAttempt := fun i _ =>
  if i = 0 then ⟨.ok (some 10), .ok 1, .ok 100, .ok "OK1"⟩
  else ⟨.ok (some 10), .ok 1, .ok 100, .error "down"⟩

/-- Witness instantiating C7 on a concrete two-row batch with one
success and one failure. -/
theorem C7_batch_summary_witness :
    ∃ trs st,
      place_scheduled_orders csvC7 benvC7 (fun _ => "09:30") 1 2 =
        .ok (trs,
          trs.map individualNotif ++
            [.summary trs.length (trs.countP fun tr => tr.result.isSuccess)
              (trs.length - trs.countP fun tr => tr.result.isSuccess)], st) ∧
      trs.length = (csvC7.rows.filter (·.is_active)).length ∧
      ∀ j, j < (csvC7.rows.filter (·.is_active)).length →
        ∃ e r s, (csvC7.rows.filter (·.is_active)).get? j = some e ∧
          place_order (benvC7 j) e 1 2 = .ok (r, s) ∧
          trs.get? j = some ⟨r, "09:30"⟩ :=
  C7_batch_summary csvC7 benvC7 (fun _ => "09:30") 1 2 (by decide) (by decide)

/-- C8 (confirmed): when a required column is missing, the whole batch
ends at the configuration-load step: exactly one ERROR notification is
produced, no timestamped outcome exists, and no submission attempt,
broker placement, or retry sleep ever happens. -/
theorem C8_missing_column (f : CsvFile) (benv : ℕ → ℕ → KiteAttempt)
    (ts : ℕ → String) (N D : ℕ) (c : String) (hc : c ∈ required_columns)
    (hmiss : c ∉ f.columns) :
    ∃ missing, missing ≠ [] ∧
      place_scheduled_orders f benv ts N D =
        .ok ([], [.configError missing], ⟨0, 0, 0⟩) := by
  cases hm : required_columns.filter (fun x => !f.columns.contains x) with
  | nil =>
    exfalso
    have hcmem : c ∈ required_columns.filter (fun x => !f.columns.contains x) := by
      rw [List.mem_filter]
      exact ⟨hc, by simp [hmiss]⟩
    rw [hm] at hcmem
    exact absurd hcmem (List.not_mem_nil c)
  | cons a t =>
    refine ⟨a :: t, by simp, ?_⟩
    simp only [place_scheduled_orders, load_stock_config]
    rw [hm]

/-- Witness instantiating C8 on a file whose header lacks the
limit_price column. -/
theorem C8_missing_column_witness :
    ∃ missing, missing ≠ [] ∧
      place_scheduled_orders
          ⟨["trading_symbol", "quantity", "order_type", "is_active"],
           [⟨"AAA".toList, some 1, "MARKET", none, true⟩]⟩
          (fun _ _ => ⟨.ok (some 10), .ok 1, .ok 100, .ok "X"⟩) (fun _ => "09:30") 3 2 =
        .ok ([], [.configError missing], ⟨0, 0, 0⟩) :=
  C8_missing_column _ _ _ 3 2 "limit_price" (by decide) (by decide)
